import Mathlib

/-!
Shallow embedding of the `fox` HTTP router core (package `fox`):
`engine.go` (Engine, New, addRoute, handleHTTPRequest, redirectTrailingSlash,
redirectFixedPath, redirectRequest, serveError) and `call.go` (the dynamic
handler invocation function `call`).

Parts of the repository referenced by `engine.go` but whose source files are
not available (the radix tree `node` with `getValue` / `addRoute` /
`findCaseInsensitivePath`, the `bind` collaborator, the `CleanPath` utility
and the MIME constants) are modelled from the specification; each such
definition carries a doc comment starting with `Modelled from the spec:`.
The Go standard-library function `path.Clean`, an external collaborator, is
modelled by its documented lexical algorithm.
-/

namespace Fox

/-- A dynamically-typed Go value (`interface{}`) as far as the invocation
layer inspects one: the untyped `nil`, the dispatch-context reference passed
as first argument, plain data payloads, a plain `error` value, and the
structured `httperrors.Error` carrying an HTTP code and an error code.
`isError` below mirrors the `res.(error)` type assertion. -/
inductive GoVal where
  | goNil
  | ctxRef
  | str (s : String)
  | int (n : Int)
  | err (msg : String)
  | httpErr (httpCode : Nat) (code : String) (msg : String)
  deriving DecidableEq, Repr

/-- Mirrors the Go type assertion `v.(error)`: `err` values and
`*httperrors.Error` values implement the `error` interface; `nil`, the
context and plain payloads do not. -/
def GoVal.isError : GoVal → Bool
  | .err _ => true
  | .httpErr _ _ _ => true
  | _ => false

/-- The reflected shape and behaviour of a Go function value:
`numIn = funcType.NumIn()`, `numOut = funcType.NumOut()`, and `body` is
`funcValue.Call`, taking the argument list to the returned value list. -/
structure Handler where
  numIn : Nat
  numOut : Nat
  body : List GoVal → List GoVal

/-- `HandlerFunc` is `interface{}` in Go (engine.go line 40): a registered
handler may be the untyped `nil`, a function value, or any non-function
value (`reflect.ValueOf` of the latter two has `Kind() ≠ reflect.Func`). -/
inductive HandlerFunc where
  | goNil
  | fn (h : Handler)
  | nonFunc (v : GoVal)

/-- `HandlersChain` defines a `HandlerFunc` slice (engine.go line 43). -/
def HandlersChain := List HandlerFunc

/-- The dispatch context, as far as `call` consumes it.  The `bind`
collaborator is repository code outside the available sources.
Modelled from the spec: `bind(context, targetPointer) -> error` populates the
handler's i-th declared argument structure from the matched path parameters,
query string and body, and reports a binding error on failure; here it is an
oracle from the argument position to either the populated value or the
binding error's message. -/
structure Ctx where
  bindArg : Nat → Except String GoVal

/-- The result of `call`: either a Go panic with its message, or the `any`
value returned to the caller (`GoVal.goNil` for Go's `nil`). -/
inductive CallResult where
  | panicked (msg : String)
  | value (v : GoVal)
  deriving DecidableEq, Repr

/-- Is the result a panic? -/
def CallResult.isPanic : CallResult → Bool
  | .panicked _ => true
  | .value _ => false

/-- The argument-binding loop of `call` (call.go lines 43-55): for each
parameter position after the context, allocate the declared structure and
bind it; the first binding failure aborts with its error. -/
def bindArgs (c : Ctx) : List Nat → Except String (List GoVal)
  | [] => .ok []
  | i :: is =>
    match c.bindArg i with
    | .error e => .error e
    | .ok v =>
      match bindArgs c is with
      | .error e => .error e
      | .ok vs => .ok (v :: vs)

/-- The input-value list handed to `funcValue.Call` (call.go lines 35-57):
no arguments, the context alone, or the context followed by every bound
argument structure; a binding failure surfaces as the error. -/
def callInputs (c : Ctx) (h : Handler) : Except String (List GoVal) :=
  match h.numIn with
  | 0 => .ok []
  | 1 => .ok [.ctxRef]
  | _ =>
    match bindArgs c (List.range' 1 (h.numIn - 1)) with
    | .error e => .error e
    | .ok vs => .ok (.ctxRef :: vs)

/-- `call(ctx, handler)` from call.go: panics when the handler is not a
function (the message formats the value; the text is abbreviated here) or
declares more than two results; on a binding failure returns the
`httperrors.Error` with HTTP code 400 and code `BIND_ERROR` without calling
the function; otherwise calls the function and classifies its results:
0 results give `nil`, 1 result is returned as-is (whether an error or a
payload), and with 2 results the second wins when it is an error, else the
first is returned. -/
def call (c : Ctx) (handler : HandlerFunc) : CallResult :=
  match handler with
  | .goNil => .panicked "is not a function"
  | .nonFunc _ => .panicked "is not a function"
  | .fn h =>
    if 2 < h.numOut then
      .panicked "only support handler func returns max is two values"
    else
      match callInputs c h with
      | .error e => .value (.httpErr 400 "BIND_ERROR" e)
      | .ok ins =>
        let values := h.body ins
        match h.numOut with
        | 0 => .value .goNil
        | 1 => .value (values.getD 0 .goNil)
        | _ =>
          let res := values.getD 0 .goNil
          let e := values.getD 1 .goNil
          if e.isError then .value e else .value res

/-- A registered route in one method's tree: the path pattern and its
handler chain.  The claims under verification register only static
patterns, so the tree is modelled at the granularity of whole patterns. -/
structure Route where
  pattern : String
  handlers : HandlersChain

/-- `methodTree` (one entry of `engine.trees`): an HTTP method together
with the routes stored in its tree. -/
structure MethodTree where
  method : String
  routes : List Route

/-- The engine configuration and route table, from `engine.go`'s `Engine`
struct: the redirect, method-not-allowed and OPTIONS flags, the router
group's base path, the default content type, and one tree per method. -/
structure Engine where
  redirectTrailingSlash : Bool
  redirectFixedPath : Bool
  handleMethodNotAllowed : Bool
  handleOPTIONS : Bool
  basePath : String
  defaultContentType : String
  trees : List MethodTree

/-- An incoming request as `handleHTTPRequest` consumes it: the method,
the URL path, and the `X-Forwarded-Prefix` header value (empty string when
the header is absent, as Go's `Header.Get` returns). -/
structure Request where
  method : String
  path : String
  fwdHeader : String

/-- The observable outcome of `handleHTTPRequest`: the matched chain was
executed, a redirect was written (`http.Redirect` with the given code and
Location), or `serveError` wrote an error response with the given status,
`Allow` header value (if any was set) and default body. -/
inductive Outcome where
  | executed (handlers : HandlersChain) (fullPath : String)
  | redirect (code : Nat) (location : String)
  | errorResp (code : Nat) (allowHeader : Option String) (body : String)

/-- Is the outcome a redirect? -/
def Outcome.isRedirect : Outcome → Bool
  | .redirect _ _ => true
  | _ => false

/-- Is the outcome an executed handler chain? -/
def Outcome.isExecuted : Outcome → Bool
  | .executed _ _ => true
  | _ => false

/-- Is the outcome an error response (the 404/405 handling)? -/
def Outcome.isErrorResp : Outcome → Bool
  | .errorResp _ _ _ => true
  | _ => false

/-- The first character of a string, mirroring Go's byte indexing `s[0]`
(the paths involved are ASCII). -/
def strHead (s : String) : Option Char := s.data.head?

/-- Does the string end with the given character?  Mirrors Go's
`s[len(s)-1] == c` for ASCII paths. -/
def strLastIs (s : String) (c : Char) : Bool := s.data.getLast? == some c

/-- Does `s` start with `pre`?  List-level counterpart of Go's
`strings.HasPrefix`. -/
def strStarts (s pre : String) : Bool := pre.data.isPrefixOf s.data

/-- Split a character list at every occurrence of `c` (the separators are
consumed), accumulating the current segment in reverse. -/
def splitOnCharAux (c : Char) : List Char → List Char → List (List Char)
  | [], acc => [acc.reverse]
  | x :: xs, acc =>
    if x == c then acc.reverse :: splitOnCharAux c xs []
    else splitOnCharAux c xs (x :: acc)

/-- The segments of a string between occurrences of `c`, as strings. -/
def splitOnChar (c : Char) (s : String) : List String :=
  (splitOnCharAux c s.data []).map String.mk

/-- ASCII lowercasing of one character. -/
def lowerChar (ch : Char) : Char :=
  if 'A' ≤ ch ∧ ch ≤ 'Z' then Char.ofNat (ch.toNat + 32) else ch

/-- One step of lexical path cleaning, processing one segment against the
stack of kept segments: empty and `.` segments are dropped; `..` pops the
last kept segment when possible (on a rooted path a `..` at the root is
dropped, on a relative path it is kept); other segments are appended. -/
def cleanPush (rooted : Bool) (stack : List String) (seg : String) : List String :=
  if seg = "" || seg = "." then stack
  else if seg = ".." then
    if rooted then stack.dropLast
    else if stack ≠ [] ∧ stack.getLast? ≠ some ".." then stack.dropLast
    else stack ++ [".."]
  else stack ++ [seg]

/-- The Go standard library's `path.Clean`, the external collaborator used
by `redirectTrailingSlash` on the `X-Forwarded-Prefix` header, modelled by
its documented lexical algorithm: the empty path cleans to `.`; otherwise
segments are processed left to right collapsing `//`, `.` and `..`, the
result keeps the leading `/` of a rooted path, drops any trailing slash,
and an empty result is `.`. -/
def clean (p : String) : String :=
  if p = "" then "."
  else
    let rooted := strHead p == some '/'
    let stack := (splitOnChar '/' p).foldl (cleanPush rooted) []
    let out := (if rooted then "/" else "") ++ String.intercalate "/" stack
    if out = "" then "." else out

/-- Modelled from the spec: the repository path utility `CleanPath`
(its source file is not available): canonicalize the request path by
collapsing `..` and `//` and ensuring a leading `/`; a trailing slash is
preserved. -/
def cleanPath (p : String) : String :=
  if p = "" then "/"
  else
    let q := if strStarts p "/" then p else "/" ++ p
    let c := clean q
    if strLastIs p '/' && !(strLastIs c '/') && c != "/" then c ++ "/" else c

/-- The result of a tree lookup, as `handleHTTPRequest` consumes it: the
handler chain when a route terminates at the path (with the registered full
path), and otherwise the trailing-slash recommendation. -/
structure LookupValue where
  handlers : Option HandlersChain
  fullPath : String
  tsr : Bool

/-- Modelled from the spec: the radix tree lookup `node.getValue` (the tree
source file is not available), specialised to the static patterns the
claims use: an exact pattern match returns its handler chain; otherwise,
when removing or adding a single trailing slash reaches a registered
pattern, the lookup reports a trailing-slash recommendation instead of a
plain miss. -/
def getValue (routes : List Route) (p : String) : LookupValue :=
  match routes.find? (fun r => r.pattern == p) with
  | some r => ⟨some r.handlers, r.pattern, false⟩
  | none =>
    let tsr :=
      (routes.any (fun r => r.pattern == p ++ "/")) ||
      (strLastIs p '/' && routes.any (fun r => r.pattern == p.dropRight 1))
    ⟨none, "", tsr⟩

/-- ASCII-lowercase a string, for the case-insensitive lookup. -/
def lowerStr (s : String) : String := String.mk (s.data.map lowerChar)

/-- Modelled from the spec: `node.findCaseInsensitivePath` (the tree source
file is not available): a case-folding walk over the cleaned path that
reconstructs the exact-cased stored path on success; when the
trailing-slash fix is allowed, a pattern differing only by one trailing
slash is also accepted. -/
def findCaseInsensitivePath (routes : List Route) (cleanedPath : String)
    (fixTrailingSlash : Bool) : Option String :=
  match routes.find? (fun r => lowerStr r.pattern == lowerStr cleanedPath) with
  | some r => some r.pattern
  | none =>
    if fixTrailingSlash then
      match routes.find? (fun r => lowerStr r.pattern == lowerStr cleanedPath ++ "/") with
      | some r => some r.pattern
      | none =>
        if cleanedPath.endsWith "/" then
          (routes.find? (fun r => lowerStr r.pattern == lowerStr (cleanedPath.dropRight 1))).map
            (fun r => r.pattern)
        else none
    else none

/-- `redirectRequest` from engine.go: writes `http.Redirect` to the
(already updated) request URL with `http.StatusMovedPermanently` (301) for
requests whose method is `GET`, and `http.StatusPermanentRedirect` (308)
for every other method. -/
def redirectRequest (method newPath : String) : Outcome :=
  let code := if method != "GET" then 308 else 301
  .redirect code newPath

/-- `redirectTrailingSlash` from engine.go: prepend the cleaned
`X-Forwarded-Prefix` header when it cleans to something other than `.`,
then flip the trailing slash of the resulting path (strip a trailing slash
from a multi-character path, otherwise append one) and redirect there. -/
def redirectTrailingSlash (req : Request) : Outcome :=
  let p := if clean req.fwdHeader != "." then clean req.fwdHeader ++ "/" ++ req.path else req.path
  let newPath := if p.length > 1 && strLastIs p '/' then p.dropRight 1 else p ++ "/"
  redirectRequest req.method newPath

/-- `redirectFixedPath` from engine.go: look up the case-insensitive match
of the cleaned request path; on success redirect the request there and
report `true`, otherwise report `false`. -/
def redirectFixedPath (req : Request) (routes : List Route)
    (trailingSlash : Bool) : Option Outcome :=
  match findCaseInsensitivePath routes (cleanPath req.path) trailingSlash with
  | some fixed => some (redirectRequest req.method fixed)
  | none => none

/-- The per-method-tree loop of `handleHTTPRequest` (engine.go lines
318-346): the loop body runs only for the tree whose method equals the
request's and then breaks, so it is a lookup via `trees.find?`.  On a tree
hit the path is looked up; a terminal node's chain is executed.  On a miss,
unless the method is `CONNECT` or the path is `/`, the trailing-slash
redirect is tried (when the lookup recommended one and the flag is on) and
then the fixed-path redirect (when that flag is on).  `none` means the loop
fell through to the 405/404 handling. -/
def methodTreeLoop (e : Engine) (req : Request) : Option Outcome :=
  match e.trees.find? (fun t => t.method == req.method) with
  | none => none
  | some t =>
    let value := getValue t.routes req.path
    match value.handlers with
    | some hs => some (.executed hs value.fullPath)
    | none =>
      if req.method != "CONNECT" && req.path != "/" then
        if value.tsr && e.redirectTrailingSlash then
          some (redirectTrailingSlash req)
        else if e.redirectFixedPath then
          redirectFixedPath req t.routes e.redirectFixedPath
        else none
      else none

/-- `handleHTTPRequest` from engine.go: run the method-tree loop; when it
falls through, if `HandleMethodNotAllowed` is on and some other method's
tree matches the path, `serveError` writes 405 with the default body (no
`Allow` header is set anywhere on this path); otherwise `serveError`
writes 404. -/
def handleHTTPRequest (e : Engine) (req : Request) : Outcome :=
  match methodTreeLoop e req with
  | some out => out
  | none =>
    if e.handleMethodNotAllowed &&
        e.trees.any (fun t => t.method != req.method && (getValue t.routes req.path).handlers.isSome) then
      .errorResp 405 none "405 method not allowed"
    else
      .errorResp 404 none "404 page not found"

/-- Is this registered handler the untyped `nil`?  (`handler == nil` in the
`addRoute` validation loop.) -/
def HandlerFunc.isGoNil : HandlerFunc → Bool
  | .goNil => true
  | _ => false

/-- Modelled from the spec: `node.addRoute`, the tree insertion (the tree
source file is not available), specialised to the static patterns the
claims use: inserting a pattern that is already registered is a conflicting
route and fails (registration-time fatal); otherwise the route is stored. -/
def insertRoute (routes : List Route) (p : String) (hs : HandlersChain) :
    Except String (List Route) :=
  if routes.any (fun r => r.pattern == p) then
    .error "handlers are already registered for path"
  else
    .ok (routes ++ [⟨p, hs⟩])

/-- `Engine.addRoute` from engine.go, with a Go panic modelled as `.error`:
indexing `path[0]` on an empty pattern panics out of range; then the
asserts fire for a pattern without a leading `/`, an empty method and an
empty handler chain; then the loop rejects a `nil` handler; finally the
route is inserted into the method's tree, creating the tree on first use. -/
def Engine.addRoute (e : Engine) (method p : String) (hs : HandlersChain) :
    Except String Engine :=
  if p = "" then .error "index out of range"
  else if !(strHead p == some '/') then .error "path must begin with '/'"
  else if method = "" then .error "HTTP method can not be empty"
  else if hs.length = 0 then .error "there must be at least one handler"
  else if hs.any HandlerFunc.isGoNil then .error "handler can not be nil"
  else
    match e.trees.find? (fun t => t.method == method) with
    | none =>
      match insertRoute [] p hs with
      | .error msg => .error msg
      | .ok rs => .ok { e with trees := e.trees ++ [⟨method, rs⟩] }
    | some t =>
      match insertRoute t.routes p hs with
      | .error msg => .error msg
      | .ok rs =>
        .ok { e with trees :=
          e.trees.map (fun t2 => if t2.method == t.method then ⟨t2.method, rs⟩ else t2) }

/-- Modelled from the spec: the MIME constant `MIMEJSON` (the constants
file is not available): the JSON media type. -/
def MIMEJSON : String := "application/json"

/-- `New()` from engine.go: the freshly initialized engine, with both
redirect fixups, method-not-allowed handling and OPTIONS auto-reply
enabled, the router group rooted at base path `/`, the default content
type set to JSON, and no routes. -/
def New : Engine :=
  { redirectTrailingSlash := true
    redirectFixedPath := true
    handleMethodNotAllowed := true
    handleOPTIONS := true
    basePath := "/"
    defaultContentType := MIMEJSON
    trees := [] }

/-! Concrete scenario material used by the theorems below. -/

/-- Is an `Except` value an `.ok`?  (A Go call that did not panic.) -/
def isOkE {ε α : Type} : Except ε α → Bool
  | .ok _ => true
  | .error _ => false

/-- Does the engine's tree for method `m` hold a route with pattern `p`? -/
def hasRoute (e : Engine) (m p : String) : Bool :=
  e.trees.any (fun t => t.method == m && t.routes.any (fun r => r.pattern == p))

/-- The disjunction of the four registration inputs that `addRoute` rejects:
empty method, pattern not starting with `/` (which covers the empty
pattern), empty handler chain, or a `nil` handler in the chain. -/
def badRouteInput (m p : String) (hs : HandlersChain) : Bool :=
  m == "" || !(strHead p == some '/') || hs.length == 0 || hs.any HandlerFunc.isGoNil

/-- `addRoute` with the error discarded, for building concrete engines. -/
def addRouteD (e : Engine) (m p : String) (hs : HandlersChain) : Engine :=
  match e.addRoute m p hs with
  | .ok e2 => e2
  | .error _ => e

/-- A benign registered handler: `func(ctx *Context) {}`. -/
def handlerUnit : HandlerFunc := .fn ⟨1, 0, fun _ => []⟩

/-- A context whose bindings all succeed (no declared argument fails). -/
def ctx0 : Ctx := ⟨fun _ => .ok .goNil⟩

/-- An engine with only `POST /x` registered (`New` defaults otherwise). -/
def engine405 : Engine := addRouteD New "POST" "/x" [handlerUnit]

/-- An engine with only `HEAD /a/b` registered. -/
def engineHEAD : Engine := addRouteD New "HEAD" "/a/b" [handlerUnit]

/-- An engine with `GET /a/b` and `POST /a/b` registered. -/
def engineAB : Engine :=
  addRouteD (addRouteD New "GET" "/a/b" [handlerUnit]) "POST" "/a/b" [handlerUnit]

/-- `engineAB` with both redirect fixups disabled. -/
def engineABoff : Engine :=
  { engineAB with redirectTrailingSlash := false, redirectFixedPath := false }

/-- An engine with only `CONNECT /x` registered. -/
def engineCONNECT : Engine := addRouteD New "CONNECT" "/x" [handlerUnit]

/-- The engine obtained by registering `GET /x` on a fresh engine. -/
def engineGX : Engine := addRouteD New "GET" "/x" [handlerUnit]

/-- A handler with three results `(value, status code, error)`:
`func(ctx *Context) (any, int, error)`. -/
def handlerThree : Handler := ⟨1, 3, fun _ => [.str "v", .int 200, .goNil]⟩

/-- A handler with two results whose second is a non-nil error. -/
def handlerTwo : Handler := ⟨1, 2, fun _ => [.str "payload", .err "boom"]⟩

/-- A handler declaring one extra argument structure, with one result. -/
def handlerArgs : Handler := ⟨2, 1, fun _ => [.str "ok"]⟩

/-- A context on which binding the declared argument structure fails. -/
def ctxBad : Ctx := ⟨fun _ => .error "missing field name"⟩

/-! The claims. -/

/-- C1: on the failing input of the claim — only `POST /x` registered with
`HandleMethodNotAllowed` enabled, request `GET /x` — the code answers 405
with the default body but sets no `Allow` header at all, where the claim
(and the repository's own test `TestRouterNotAllowed` and the doc comment
on `Engine.noMethod`) require `Allow: OPTIONS, POST`. -/
theorem claim1_405_sets_no_allow_header :
    handleHTTPRequest engine405 ⟨"GET", "/x", ""⟩ =
      .errorResp 405 none "405 method not allowed" := rfl

/-- C4: with `GET /a/b` and `POST /a/b` registered and
`RedirectTrailingSlash` enabled, requesting `/a/b/` redirects to `/a/b`
with 301 for GET and 308 for POST; with both redirect fixups disabled the
same requests yield 404. -/
theorem claim4_trailing_slash_law :
    handleHTTPRequest engineAB ⟨"GET", "/a/b/", ""⟩ = .redirect 301 "/a/b" ∧
    handleHTTPRequest engineAB ⟨"POST", "/a/b/", ""⟩ = .redirect 308 "/a/b" ∧
    handleHTTPRequest engineABoff ⟨"GET", "/a/b/", ""⟩ =
      .errorResp 404 none "404 page not found" ∧
    handleHTTPRequest engineABoff ⟨"POST", "/a/b/", ""⟩ =
      .errorResp 404 none "404 page not found" :=
  ⟨rfl, rfl, rfl, rfl⟩

/-- C8: on the failing input of the claim — the non-function value `42`
registered as the handler of `GET /x` — `addRoute` accepts the
registration (it only rejects `nil`), and the failure happens only when a
request reaches `call`, which panics; the claim (and the code's own TODO
at the check) put the failure at registration time. -/
theorem claim8_nonfunction_accepted_at_registration_panics_at_call :
    isOkE (New.addRoute "GET" "/x" [.nonFunc (.int 42)]) = true ∧
    call ctx0 (.nonFunc (.int 42)) = .panicked "is not a function" :=
  ⟨rfl, rfl⟩

/-- C10: `New()` enables `RedirectTrailingSlash`, `RedirectFixedPath`,
`HandleMethodNotAllowed` and `HandleOPTIONS`, roots the router group at
base path `/`, and sets the default content type to JSON. -/
theorem claim10_new_defaults :
    New.redirectTrailingSlash = true ∧ New.redirectFixedPath = true ∧
    New.handleMethodNotAllowed = true ∧ New.handleOPTIONS = true ∧
    New.basePath = "/" ∧ New.defaultContentType = MIMEJSON :=
  ⟨rfl, rfl, rfl, rfl, rfl, rfl⟩

/-- C3, counterexample: a handler with three results
`(value, status code, error)` is not interpreted — `call` panics on it. -/
theorem claim3_counterexample :
    call ctx0 (.fn handlerThree) =
      .panicked "only support handler func returns max is two values" := rfl

/-- C3, as amended: the invocation layer supports at most two results; for
every handler function declaring more than two results (in particular the
three-result shape `(value, status code, error)`) `call` panics instead of
interpreting the results into a response outcome. -/
theorem claim3_more_than_two_results_panics (c : Ctx) (h : Handler)
    (hgt : 2 < h.numOut) :
    call c (.fn h) =
      .panicked "only support handler func returns max is two values" := by
  simp only [call]
  rw [if_pos hgt]

/-- C3, witness for the amended theorem at the three-result handler. -/
theorem claim3_witness :
    2 < handlerThree.numOut ∧
    call ctx0 (.fn handlerThree) =
      .panicked "only support handler func returns max is two values" :=
  ⟨by decide, claim3_more_than_two_results_panics ctx0 handlerThree (by decide)⟩

/-- Helper: `redirectRequest` picks 301 exactly for the method `GET` and
308 for every other method. -/
theorem redirectRequest_code (m np : String) (c : Nat) (l : String)
    (h : redirectRequest m np = .redirect c l) :
    c = if m == "GET" then 301 else 308 := by
  simp only [redirectRequest] at h
  injection h with h1 h2
  subst h1
  cases hm : m == "GET" <;> simp [bne, hm]

/-- Helper: a trailing-slash redirect carries the `redirectRequest` code. -/
theorem redirectTrailingSlash_code (req : Request) (c : Nat) (l : String)
    (h : redirectTrailingSlash req = .redirect c l) :
    c = if req.method == "GET" then 301 else 308 := by
  simp only [redirectTrailingSlash] at h
  exact redirectRequest_code _ _ _ _ h

/-- Helper: a fixed-path redirect carries the `redirectRequest` code. -/
theorem redirectFixedPath_code (req : Request) (routes : List Route) (ts : Bool)
    (c : Nat) (l : String)
    (h : redirectFixedPath req routes ts = some (.redirect c l)) :
    c = if req.method == "GET" then 301 else 308 := by
  simp only [redirectFixedPath] at h
  cases hf : findCaseInsensitivePath routes (cleanPath req.path) ts with
  | none => rw [hf] at h; exact absurd h (by simp)
  | some fixed =>
    rw [hf] at h
    injection h with h1
    exact redirectRequest_code _ _ _ _ h1

/-- Helper: every redirect produced inside the method-tree loop carries the
`redirectRequest` code. -/
theorem methodTreeLoop_redirect_code (e : Engine) (req : Request) (c : Nat)
    (l : String) (h : methodTreeLoop e req = some (.redirect c l)) :
    c = if req.method == "GET" then 301 else 308 := by
  unfold methodTreeLoop at h
  cases hf : e.trees.find? (fun t => t.method == req.method) with
  | none => rw [hf] at h; exact absurd h (by simp)
  | some t =>
    rw [hf] at h
    simp only at h
    cases hh : (getValue t.routes req.path).handlers with
    | some hs => rw [hh] at h; simp at h
    | none =>
      rw [hh] at h
      by_cases hg : (req.method != "CONNECT" && req.path != "/") = true
      · rw [if_pos hg] at h
        by_cases htsr : ((getValue t.routes req.path).tsr && e.redirectTrailingSlash) = true
        · rw [if_pos htsr] at h
          injection h with h1
          exact redirectTrailingSlash_code _ _ _ h1
        · rw [if_neg htsr] at h
          by_cases hfp : e.redirectFixedPath = true
          · rw [if_pos hfp] at h
            exact redirectFixedPath_code _ _ _ _ _ h
          · rw [if_neg hfp] at h; simp at h
      · rw [if_neg hg] at h; simp at h

/-- C2, counterexample: with `HEAD /a/b` registered, the trailing-slash
redirect for a `HEAD /a/b/` request is issued with status 308, not the 301
the claim requires for `HEAD`. -/
theorem claim2_counterexample :
    handleHTTPRequest engineHEAD ⟨"HEAD", "/a/b/", ""⟩ = .redirect 308 "/a/b" ∧
    (308 : Nat) ≠ 301 :=
  ⟨rfl, by decide⟩

/-- C2, as amended: whenever the engine issues a redirect (trailing-slash
fix or fixed-path correction), the status code is 301 if the request method
is `GET`, and 308 for every other method — including `HEAD`. -/
theorem claim2_redirect_status (e : Engine) (req : Request) (c : Nat)
    (l : String) (h : handleHTTPRequest e req = .redirect c l) :
    c = if req.method == "GET" then 301 else 308 := by
  unfold handleHTTPRequest at h
  cases hm : methodTreeLoop e req with
  | none =>
    rw [hm] at h
    by_cases h5 : (e.handleMethodNotAllowed &&
        e.trees.any (fun t =>
          t.method != req.method && (getValue t.routes req.path).handlers.isSome)) = true
    · rw [if_pos h5] at h; simp at h
    · rw [if_neg h5] at h; simp at h
  | some out =>
    rw [hm] at h
    simp only at h
    subst h
    exact methodTreeLoop_redirect_code _ _ _ _ hm

/-- C2, witness for the amended theorem at a concrete `POST` redirect. -/
theorem claim2_witness :
    handleHTTPRequest engineAB ⟨"POST", "/a/b/", ""⟩ = .redirect 308 "/a/b" ∧
    308 = if (("POST" : String) == "GET") then 301 else 308 :=
  ⟨rfl, claim2_redirect_status engineAB ⟨"POST", "/a/b/", ""⟩ 308 "/a/b" rfl⟩

/-- Helper: an outcome that is not a redirect is a chain execution or an
error response. -/
theorem outcome_not_redirect (o : Outcome) (h : o.isRedirect = false) :
    (o.isExecuted || o.isErrorResp) = true := by
  cases o <;> simp [Outcome.isRedirect, Outcome.isExecuted, Outcome.isErrorResp] at *

/-- C9: for a `CONNECT` request or a request for the path `/`, the engine
never issues a trailing-slash or fixed-path redirect (whatever the flags);
the request is executed on an exact match or falls through to the 405/404
error handling. -/
theorem claim9_connect_or_root_never_redirects (e : Engine) (req : Request)
    (h : (req.method == "CONNECT" || req.path == "/") = true) :
    (handleHTTPRequest e req).isRedirect = false ∧
    ((handleHTTPRequest e req).isExecuted ||
     (handleHTTPRequest e req).isErrorResp) = true := by
  have hguard : (req.method != "CONNECT" && req.path != "/") = false := by
    cases ha : req.method == "CONNECT" <;> cases hb : req.path == "/" <;>
      simp [ha, hb, bne] at h ⊢
  have hloop : ∀ out, methodTreeLoop e req = some out → out.isRedirect = false := by
    intro out hm
    unfold methodTreeLoop at hm
    cases hf : e.trees.find? (fun t => t.method == req.method) with
    | none => rw [hf] at hm; simp at hm
    | some t =>
      rw [hf] at hm
      simp only at hm
      cases hh : (getValue t.routes req.path).handlers with
      | some hs => rw [hh] at hm; injection hm with h1; subst h1; rfl
      | none => rw [hh, hguard] at hm; simp at hm
  have h1 : (handleHTTPRequest e req).isRedirect = false := by
    unfold handleHTTPRequest
    cases hm : methodTreeLoop e req with
    | some out =>
      show out.isRedirect = false
      exact hloop out hm
    | none =>
      show (if _ then Outcome.errorResp 405 none "405 method not allowed"
            else Outcome.errorResp 404 none "404 page not found").isRedirect = false
      split <;> rfl
  exact ⟨h1, outcome_not_redirect _ h1⟩

/-- C9, witness: `CONNECT /x` is registered and `CONNECT /x/` requested on
a default engine (both redirect flags on, and the lookup would recommend
the trailing-slash fix): no redirect, the request falls to 404. -/
theorem claim9_witness :
    ((("CONNECT" : String) == "CONNECT") || (("/x/" : String) == "/")) = true ∧
    ((handleHTTPRequest engineCONNECT ⟨"CONNECT", "/x/", ""⟩).isRedirect = false ∧
     ((handleHTTPRequest engineCONNECT ⟨"CONNECT", "/x/", ""⟩).isExecuted ||
      (handleHTTPRequest engineCONNECT ⟨"CONNECT", "/x/", ""⟩).isErrorResp) = true) :=
  ⟨by decide,
   claim9_connect_or_root_never_redirects engineCONNECT ⟨"CONNECT", "/x/", ""⟩ (by decide)⟩

/-- C5: for a handler with exactly two results whose invocation reaches the
function call, the second result is checked first: when it is an error-kind
value it becomes the outcome and the first result's payload is discarded,
otherwise the first result is the outcome. -/
theorem claim5_two_results_second_checked_first (c : Ctx) (h : Handler)
    (ins : List GoVal) (h2 : h.numOut = 2) (hin : callInputs c h = .ok ins) :
    call c (.fn h) =
      if ((h.body ins).getD 1 .goNil).isError then .value ((h.body ins).getD 1 .goNil)
      else .value ((h.body ins).getD 0 .goNil) := by
  have hne : ¬ 2 < h.numOut := by omega
  simp only [call, if_neg hne, hin]
  rw [h2]

/-- C5, witness: a two-result handler returning `("payload", error "boom")`
yields the error, discarding the payload. -/
theorem claim5_witness :
    handlerTwo.numOut = 2 ∧ callInputs ctx0 handlerTwo = .ok [.ctxRef] ∧
    call ctx0 (.fn handlerTwo) = .value (.err "boom") :=
  ⟨rfl, rfl, claim5_two_results_second_checked_first ctx0 handlerTwo [.ctxRef] rfl rfl⟩

/-- C6: for a handler declaring extra argument structures (at least two
parameters), when binding fails the invocation layer does not call the
handler — the outcome is the same for every handler body — and yields the
`httperrors.Error` with HTTP code 400 and the distinguished code
`BIND_ERROR` (a returned value, not a panic). -/
theorem claim6_bind_failure_400 (c : Ctx) (h : Handler) (e : String)
    (hout : h.numOut ≤ 2) ( _hin2 : 2 ≤ h.numIn)
    (hb : callInputs c h = .error e) :
    ∀ b : List GoVal → List GoVal,
      call c (.fn ⟨h.numIn, h.numOut, b⟩) = .value (.httpErr 400 "BIND_ERROR" e) := by
  intro b
  have hne : ¬ 2 < h.numOut := by omega
  have hb2 : callInputs c ⟨h.numIn, h.numOut, b⟩ = .error e := hb
  simp only [call, if_neg hne, hb2]

/-- C6, witness: a two-parameter handler on a context whose binding fails
yields the 400 `BIND_ERROR` value whatever the handler body would return. -/
theorem claim6_witness :
    handlerArgs.numOut ≤ 2 ∧ 2 ≤ handlerArgs.numIn ∧
    callInputs ctxBad handlerArgs = .error "missing field name" ∧
    call ctxBad (.fn ⟨handlerArgs.numIn, handlerArgs.numOut, fun _ => [.str "other"]⟩) =
      .value (.httpErr 400 "BIND_ERROR" "missing field name") :=
  ⟨by decide, by decide, rfl,
   claim6_bind_failure_400 ctxBad handlerArgs "missing field name" (by decide) (by decide)
     rfl (fun _ => [.str "other"])⟩

/-- C7: `addRoute` fails exactly on the four rejected registration inputs
(empty method, pattern without a leading `/`, empty chain, `nil` handler);
on any other input it can only fail with the conflicting-route error, and
on success the route is registered in the method's tree. -/
theorem claim7_addroute_validation (e : Engine) (m p : String) (hs : HandlersChain) :
    (badRouteInput m p hs = true → isOkE (e.addRoute m p hs) = false) ∧
    (badRouteInput m p hs = false →
      (∀ msg, e.addRoute m p hs = .error msg →
        msg = "handlers are already registered for path") ∧
      (∀ e2, e.addRoute m p hs = .ok e2 → hasRoute e2 m p = true)) := by
  constructor
  · intro hbad
    unfold Engine.addRoute
    by_cases h1 : p = ""
    · rw [if_pos h1]; rfl
    · rw [if_neg h1]
      by_cases h2 : (!(strHead p == some '/')) = true
      · rw [if_pos h2]; rfl
      · rw [if_neg h2]
        by_cases h3 : m = ""
        · rw [if_pos h3]; rfl
        · rw [if_neg h3]
          by_cases h4 : hs.length = 0
          · rw [if_pos h4]; rfl
          · rw [if_neg h4]
            by_cases h5 : hs.any HandlerFunc.isGoNil = true
            · rw [if_pos h5]; rfl
            · exfalso
              simp [badRouteInput, h3, h4, h5] at hbad
              simp [hbad] at h2
  · intro hgood
    unfold badRouteInput at hgood
    rw [Bool.or_eq_false_iff, Bool.or_eq_false_iff, Bool.or_eq_false_iff] at hgood
    obtain ⟨⟨⟨hm0, hsl0⟩, hlen0⟩, hnil0⟩ := hgood
    have hm : ¬ (m = "") := by simpa using hm0
    have hsl : (strHead p == some '/') = true := by simpa using hsl0
    have hlen : ¬ (hs.length = 0) := by simpa using hlen0
    have hnil : ¬ (hs.any HandlerFunc.isGoNil = true) := by simp [hnil0]
    have hp : ¬ (p = "") := by
      intro hp
      subst hp
      simp [strHead] at hsl
    unfold Engine.addRoute
    rw [if_neg hp, if_neg (by simp [hsl]), if_neg hm, if_neg hlen, if_neg hnil]
    cases hf : e.trees.find? (fun t => t.method == m) with
    | none =>
      have hins : insertRoute [] p hs = .ok [⟨p, hs⟩] := by simp [insertRoute]
      rw [hins]
      constructor
      · intro msg hmsg
        exact absurd hmsg (by simp)
      · intro e2 he2
        injection he2 with he2
        subst he2
        simp [hasRoute, List.any_append]
    | some t =>
      by_cases hdup : t.routes.any (fun r => r.pattern == p) = true
      · simp only [insertRoute, if_pos hdup]
        constructor
        · intro msg hmsg
          injection hmsg with hmsg
          exact hmsg.symm
        · intro e2 he2
          simp at he2
      · simp only [insertRoute, if_neg hdup]
        constructor
        · intro msg hmsg
          simp at hmsg
        · intro e2 he2
          injection he2 with he2
          subst he2
          have htmem : t ∈ e.trees := List.mem_of_find?_eq_some hf
          have htm : (t.method == m) = true := by
            have h2 := List.find?_some hf
            simpa using h2
          simp only [hasRoute, List.any_map, List.any_eq_true]
          refine ⟨t, htmem, ?_⟩
          simp only [Function.comp]
          rw [if_pos (by simp)]
          simp [htm, List.any_append]

/-- C7, witness: a pattern without a leading `/` is rejected, and the good
registration `GET /x` lands in the `GET` tree. -/
theorem claim7_witness :
    (badRouteInput "GET" "x" [handlerUnit] = true ∧
     isOkE (New.addRoute "GET" "x" [handlerUnit]) = false) ∧
    (badRouteInput "GET" "/x" [handlerUnit] = false ∧
     hasRoute engineGX "GET" "/x" = true) :=
  ⟨⟨by decide, (claim7_addroute_validation New "GET" "x" [handlerUnit]).1 (by decide)⟩,
   ⟨by decide,
    ((claim7_addroute_validation New "GET" "/x" [handlerUnit]).2 (by decide)).2 engineGX rfl⟩⟩

end Fox
